import Mathlib

/-!
Verification development for the Sales_Log operations tracker
(`src/app.py`).  The derived-state reconciliation core, the quote-ID
allocator, the load/save normalization path and the collections-history
view are shallowly embedded below; machine floats are modelled by exact
rationals and pandas tables by typed lists or raw cell columns.
-/

namespace SalesLog

/-- A Sales row after load-time normalization: QuoteID is an integer,
QuotedPrice / DepositPaid numeric.  Only the columns the reconciliation
core reads or writes are modelled; Deposit% is `depositPct`. -/
structure Sale where
  quoteId : ℤ
  quotedPrice : ℚ
  depositPaid : ℚ
  depositPct : ℚ
deriving DecidableEq, Repr

/-- A Collections ledger row after load-time normalization. -/
structure Collection where
  quoteId : ℤ
  depositPaid : ℚ
  balanceDue : ℚ
deriving DecidableEq, Repr

/-- Sum of `DepositPaid` over the ledger rows with the given QuoteID:
the `c.groupby("QuoteID")["DepositPaid"].sum()` value looked up via
`.map(sums).fillna(0.0)` in `sync_deposit_paid` (no rows gives 0). -/
def depositSum (c : List Collection) (q : ℤ) : ℚ :=
  ((c.filter fun r => r.quoteId == q).map Collection.depositPaid).sum

/-- Rounding to two decimal places, modelling `round(x, 2)` in
`sync_deposit_paid`.  (Python rounds float ties to even; exact ties are
not exercised by anything proved here, so round-half-up on ℚ is used.) -/
def round2 (q : ℚ) : ℚ :=
  ((round (q * 100) : ℤ) : ℚ) / 100

/-- `sync_deposit_paid` (src/app.py lines 146-171): overwrite every
sale's DepositPaid with the ledger sum for its QuoteID and recompute
Deposit%.  The `pd.to_numeric` / `fillna` / `astype(int)` normalization
steps are identities on the typed rows used here (the fields are already
numeric after load), so they vanish in the embedding.  The code after
the first `return s` (lines 175-196) is unreachable and not modelled. -/
def sync_deposit_paid (s : List Sale) (c : List Collection) : List Sale :=
  s.map fun r =>
    let total := depositSum c r.quoteId
    { r with
      depositPaid := total
      depositPct := if 0 < r.quotedPrice then round2 (total / r.quotedPrice * 100) else 0 }

/-- `update_balance_due` (src/app.py lines 200-223): broadcast
`max(QuotedPrice - DepositPaid, 0)` of the matching sale onto every
ledger row; rows with no matching sale get 0 via `.fillna(0.0)`.
When the collections set is non-empty, `c["QuoteID"].map(balance)`
requires the sales index (`s.set_index("QuoteID")`) to be unique;
pandas raises on duplicate QuoteIDs, modelled by `none`.  When the
collections set is empty the map is never built and the empty set is
returned unchanged. -/
def update_balance_due (s : List Sale) (c : List Collection) : Option (List Collection) :=
  if c = [] then
    some c
  else if (s.map Sale.quoteId).Nodup then
    some (c.map fun r =>
      match s.find? (fun sl => sl.quoteId == r.quoteId) with
      | some sl => { r with balanceDue := max (sl.quotedPrice - sl.depositPaid) 0 }
      | none => { r with balanceDue := 0 })
  else
    none

/-- Maximum of a list of integers, modelling `Series.max()` on the
candidate QuoteIDs (`none` when the candidate set is empty). -/
def listMax : List ℤ → Option ℤ
  | [] => none
  | x :: xs =>
    some (match listMax xs with
      | none => x
      | some m => max x m)

/-- `candidates.max() + 1 if not candidates.empty else lo`: the
next-ID rule shared by the three area branches. -/
def nextId (lo : ℤ) (cands : List ℤ) : ℤ :=
  match listMax cands with
  | none => lo
  | some m => m + 1

/-- `(area or "").strip()` (whitespace stripped at both ends),
written over the character list so it reduces in the kernel. -/
def pyStrip (s : String) : String :=
  ⟨((s.data.dropWhile Char.isWhitespace).reverse.dropWhile Char.isWhitespace).reverse⟩

/-- `generate_unique_quote_id` (src/app.py lines 236-251): range-
partitioned allocation.  Toms River scans [1000, 2000), Manahawkin
[2000, 3000), any other area [3000, ∞); each branch returns max-in-range
plus 1, or the floor when the range holds no existing ID. -/
def generate_unique_quote_id (area : String) (s : List Sale) : ℤ :=
  if pyStrip area = "Toms River" then
    nextId 1000 ((s.map Sale.quoteId).filter fun q => 1000 ≤ q && q < 2000)
  else if pyStrip area = "Manahawkin" then
    nextId 2000 ((s.map Sale.quoteId).filter fun q => 2000 ≤ q && q < 3000)
  else
    nextId 3000 ((s.map Sale.quoteId).filter fun q => 3000 ≤ q)

/-- Membership of a quote id in the ID range the allocator scans for
the given area: [1000, 2000) for Toms River, [2000, 3000) for
Manahawkin, [3000, ∞) otherwise. -/
def areaRange (area : String) (q : ℤ) : Prop :=
  if pyStrip area = "Toms River" then 1000 ≤ q ∧ q < 2000
  else if pyStrip area = "Manahawkin" then 2000 ≤ q ∧ q < 3000
  else 3000 ≤ q

/-- Prefix sums with a starting accumulator, modelling
`Series.cumsum()` over the ledger amounts. -/
def cumsumFrom (acc : ℚ) : List ℚ → List ℚ
  | [] => []
  | x :: xs => (acc + x) :: cumsumFrom (acc + x) xs

/-- The per-quote Collections History columns (src/app.py lines
656-660): for each ledger row, (RunningTotal, TotalPaidAfterThis,
BalanceAfterThis), where the base offset is
`max(0, paid_to_date - ledger sum)`, TotalPaidAfterThis clips the
offset running total above at the quoted price
(`.clip(upper=quoted_price)`) and BalanceAfterThis clips the remainder
below at zero (`.clip(lower=0.0)`). -/
def coll_history (quotedPrice paidToDate : ℚ) (ledger : List ℚ) :
    List (ℚ × ℚ × ℚ) :=
  let offset := max 0 (paidToDate - ledger.sum)
  (cumsumFrom 0 ledger).map fun rt =>
    let tpa := min (offset + rt) quotedPrice
    (rt, tpa, max (quotedPrice - tpa) 0)

/-- A raw spreadsheet cell as read by `pd.read_excel`, before any
normalization: a numeric cell, a text cell holding a parseable number,
a text cell that does not parse, a date cell (day ordinal; pandas
converts datetimes to epoch integers under `pd.to_numeric`), or an
empty cell (NaN). -/
inductive RawCell where
  | rnum (q : ℚ)
  | rnumstr (q : ℚ)
  | rtext (s : String)
  | rdate (d : ℤ)
  | rnone
deriving DecidableEq, Repr

/-- `pd.to_numeric(cell, errors="coerce")`: numeric value when the cell
parses, `none` (NaN) otherwise. -/
def toNumericQ : RawCell → Option ℚ
  | .rnum q => some q
  | .rnumstr q => some q
  | .rdate d => some (d : ℚ)
  | .rtext _ => none
  | .rnone => none

/-- `pd.to_datetime(cell, errors="coerce")`: parseable date strings are
modelled as `rdate` cells; everything else coerces to NaT (`none`). -/
def toDateQ : RawCell → Option ℤ
  | .rdate d => some d
  | _ => none

/-- Truncation toward zero, modelling `astype(int)` on a float. -/
def ratTrunc (q : ℚ) : ℤ :=
  q.num / (q.den : ℤ)

/-- One QuoteID cell through
`pd.to_numeric(col, errors="coerce").fillna(0).astype(int)`. -/
def coerceIdCell (c : RawCell) : RawCell :=
  .rnum ((ratTrunc ((toNumericQ c).getD 0) : ℤ) : ℚ)

/-- One numeric cell through
`pd.to_numeric(col, errors="coerce").fillna(0)`. -/
def numCoerce (c : RawCell) : RawCell :=
  .rnum ((toNumericQ c).getD 0)

/-- One date cell through `pd.to_datetime(col, errors="coerce")`:
invalid dates become NaT, modelled as an empty cell. -/
def dateCoerce (c : RawCell) : RawCell :=
  match toDateQ c with
  | some d => .rdate d
  | none => .rnone

/-- A raw sheet: a row count and named columns (each a list of cells of
that length; the length discipline is pandas's and is not needed by any
theorem below). -/
structure RawSheet where
  nrows : ℕ
  cols : List (String × List RawCell)
deriving DecidableEq, Repr

/-- First column with the given name in a column list. -/
def findColVal (name : String) : List (String × List RawCell) → Option (List RawCell)
  | [] => none
  | p :: ps => if p.1 = name then some p.2 else findColVal name ps

/-- Column lookup, `df["name"]` or `None` when the column is absent. -/
def getCol (t : RawSheet) (name : String) : Option (List RawCell) :=
  findColVal name t.cols

/-- `df["name"] = v`: replace the column in place when present,
otherwise append it as the last column (pandas semantics). -/
def setCol (t : RawSheet) (name : String) (v : List RawCell) : RawSheet :=
  match findColVal name t.cols with
  | some _ => { t with cols := t.cols.map fun p => if p.1 = name then (p.1, v) else p }
  | none => { t with cols := t.cols ++ [(name, v)] }

/-- Removal of every column with the given name. -/
def removeCol (name : String) : List (String × List RawCell) → List (String × List RawCell)
  | [] => []
  | p :: ps => if p.1 = name then removeCol name ps else p :: removeCol name ps

/-- `df.drop(columns=["name"], errors="ignore")`. -/
def dropCol (t : RawSheet) (name : String) : RawSheet :=
  { t with cols := removeCol name t.cols }

/-- `df.get(name, 0)`: the column when present, else the scalar 0
broadcast over the rows. -/
def numColD (t : RawSheet) (name : String) : List RawCell :=
  (getCol t name).getD (List.replicate t.nrows (.rnum 0))

/-- One cell through `pd.to_numeric(col, errors="coerce")` with no
fillna (src/app.py line 26): unparseable cells stay NaN. -/
def toNumCellOrNaN (c : RawCell) : RawCell :=
  match toNumericQ c with
  | some q => .rnum q
  | none => .rnone

/-- In-place update of one column through a per-cell function, applied
only when the column exists (`if "name" in df.columns`). -/
def setColIfPresent (t : RawSheet) (name : String) (f : RawCell → RawCell) : RawSheet :=
  match getCol t name with
  | some col => setCol t name (col.map f)
  | none => t

/-- Create the column with the given cells when it is missing,
otherwise leave the sheet unchanged. -/
def ensureCol (t : RawSheet) (name : String) (v : List RawCell) : RawSheet :=
  match getCol t name with
  | some _ => t
  | none => setCol t name v

/-- `df[name] = pd.to_numeric(df.get(name, 0), errors="coerce").fillna(0)`. -/
def coerceNumCol (t : RawSheet) (name : String) : RawSheet :=
  setCol t name ((numColD t name).map numCoerce)

/-- `df[name] = pd.to_numeric(df.get(name, 0), errors="coerce")`
(line 26: no fillna yet). -/
def coerceNumColSoft (t : RawSheet) (name : String) : RawSheet :=
  setCol t name ((numColD t name).map toNumCellOrNaN)

/-- `sales["QuoteID"] = pd.Series(dtype="int")` when the column is
missing: reindexing the empty series gives an all-NaN column. -/
def ensureQuoteId (t : RawSheet) : RawSheet :=
  ensureCol t "QuoteID" (List.replicate t.nrows .rnone)

/-- `df["QuoteID"] = pd.to_numeric(df["QuoteID"], errors="coerce")
.fillna(0).astype(int)` (src/app.py lines 40-41). -/
def normQuoteId (t : RawSheet) : RawSheet :=
  setCol t "QuoteID" (((getCol t "QuoteID").getD []).map coerceIdCell)

/-- `load_data` (src/app.py lines 16-50) on the raw sales sheet:
coerce QuotedPrice and DepositPaid (a missing column reads as scalar
0), parse StartDate / EndDate when present, create an all-NaN QuoteID
column when missing, then coerce QuoteID to integers. -/
def loadSales (t : RawSheet) : RawSheet :=
  normQuoteId (ensureQuoteId (setColIfPresent (setColIfPresent
    (coerceNumCol (coerceNumCol t "QuotedPrice") "DepositPaid")
    "StartDate" dateCoerce) "EndDate" dateCoerce))

/-- `load_data` on the raw collections sheet: QuoteID through
`pd.to_numeric` without fillna (line 26) and then the integer coercion
(line 41); DepositPaid through the numeric coercion; DepositDue
dropped; a Status column of empty strings created when missing. -/
def loadCollections (t : RawSheet) : RawSheet :=
  ensureCol
    (dropCol (normQuoteId (coerceNumCol (coerceNumColSoft t "QuoteID") "DepositPaid"))
      "DepositDue")
    "Status"
    (List.replicate
      (dropCol (normQuoteId (coerceNumCol (coerceNumColSoft t "QuoteID") "DepositPaid"))
        "DepositDue").nrows
      (.rtext ""))

/-- `load_data` (src/app.py lines 16-50), all three sheets.  The
assignments sheet is returned exactly as read: no coercion of any of
its columns appears in the source. -/
def load_data (salesT collT assignT : RawSheet) : RawSheet × RawSheet × RawSheet :=
  (loadSales salesT, loadCollections collT, assignT)

/-- The in-place mutation `save_data` performs on each record set the
caller passes in (src/app.py lines 60-62): when a QuoteID column is
present, it is overwritten with
`pd.to_numeric(df["QuoteID"], errors="coerce").fillna(0).astype(int)`
on the caller's own object (not on a copy; the later `ensure_and_order`
prep does operate on copies). -/
def save_data_mutation (t : RawSheet) : RawSheet :=
  match getCol t "QuoteID" with
  | some col => setCol t "QuoteID" (col.map coerceIdCell)
  | none => t

/-- An Assignments row (only the fields the save path carries). -/
structure AssignmentRow where
  quoteId : ℤ
  crewMember : String
  payment : ℚ
deriving DecidableEq, Repr

/-- The durable workbook: the three record sets persisted together in
one file (sheets SalesLog, Collections, Assignments). -/
structure Workbook where
  saleslog : List Sale
  collections : List Collection
  assignments : List AssignmentRow
deriving DecidableEq, Repr

/-- Durable filesystem state seen by `save_data`: the canonical file's
content and the temporary file (`none` when no tmp file exists). -/
structure FS where
  canonical : Workbook
  tmp : Option Workbook
deriving DecidableEq, Repr

/-- Where an exception is raised inside the try block of `save_data`:
creating the temporary file (`tempfile.NamedTemporaryFile`), writing
the sheets (`pd.ExcelWriter` and the openpyxl formatting), or the final
`os.replace` (e.g. a PermissionError when the destination is locked). -/
inductive FailPoint where
  | tmpCreate
  | sheetWrite
  | replaceStep
deriving DecidableEq, Repr

/-- The empty temporary file right after `NamedTemporaryFile` creates
it, before any sheet is written. -/
def emptyWorkbook : Workbook := ⟨[], [], []⟩

/-- `tempfile.NamedTemporaryFile(delete=False, dir=..., ...)`: creates
an empty temporary file next to the canonical one. -/
def mkTmpStep (fs : FS) : FS :=
  ⟨fs.canonical, some emptyWorkbook⟩

/-- The `pd.ExcelWriter` block: writes the three sheets (and the
openpyxl number formats) into the temporary file only. -/
def writeSheetsStep (w : Workbook) (fs : FS) : FS :=
  ⟨fs.canonical, some w⟩

/-- `os.replace(tmp_path, EXCEL_FILE)`: atomically installs the
temporary file over the canonical one. -/
def replaceFile (fs : FS) : FS :=
  match fs.tmp with
  | some w => ⟨w, none⟩
  | none => fs

/-- The finally block: `os.remove(tmp_path)` when a temporary file is
left behind (its own errors are swallowed). -/
def cleanupTmp (fs : FS) : FS :=
  ⟨fs.canonical, none⟩

/-- The durable write path of `save_data` (src/app.py lines 92-141)
with an injected failure point.  The canonical file is touched only by
`os.replace`, which is atomic: it either fully installs the temporary
file's content or raises leaving the destination unchanged (the
`sheetWrite` failure leaves a partially written temporary file, here
the state after only `mkTmpStep`).  Every exception in the try block is
caught (`except` returns False) and the finally block removes any
leftover temporary file. -/
def save_data_fs (fail : Option FailPoint) (fs : FS) (w : Workbook) : Bool × FS :=
  match fail with
  | none => (true, cleanupTmp (replaceFile (writeSheetsStep w (mkTmpStep fs))))
  | some .tmpCreate => (false, cleanupTmp fs)
  | some .sheetWrite => (false, cleanupTmp (mkTmpStep fs))
  | some .replaceStep => (false, cleanupTmp (writeSheetsStep w (mkTmpStep fs)))

/-- `save_data` against a destination whose lock state per replace
attempt is given by `locked`.  The source makes exactly one attempt:
there is no retry loop and no backoff sleep anywhere in lines 92-141; a
PermissionError from `os.replace` is caught and False returned at once.
The third component counts the replace attempts actually made. -/
def save_data_locked (locked : ℕ → Bool) (fs : FS) (w : Workbook) :
    Bool × FS × ℕ :=
  if locked 0 then (false, cleanupTmp (writeSheetsStep w (mkTmpStep fs)), 1)
  else (true, cleanupTmp (replaceFile (writeSheetsStep w (mkTmpStep fs))), 1)

/-! Concrete data for witness and counterexample instantiations. -/

/-- A single sale: quote 1001 priced 1000, nothing rolled up yet. -/
def c1Sales : List Sale := [⟨1001, 1000, 0, 0⟩]

/-- One ledger payment of 250 against quote 1001. -/
def c1Ledger : List Collection := [⟨1001, 250, 0⟩]

/-- A follow-up ledger payment of 800 against quote 1001. -/
def c1More : List Collection := [⟨1001, 800, 0⟩]

/-- Two sales with distinct QuoteIDs, already rolled up. -/
def c2Sales : List Sale := [⟨1001, 1000, 250, 25⟩, ⟨2001, 500, 0, 0⟩]

/-- A ledger row for quote 1001 and an orphan row for quote 999. -/
def c2Ledger : List Collection := [⟨1001, 250, 7⟩, ⟨999, 50, 7⟩]

/-- The collections set `update_balance_due` produces from `c2Sales`
and `c2Ledger`. -/
def c2Out : List Collection :=
  [⟨1001, 250, max ((1000 : ℚ) - 250) 0⟩, ⟨999, 50, 0⟩]

/-- A raw sales sheet holding a negative QuotedPrice. -/
def c5SalesRaw : RawSheet :=
  ⟨1, [("QuoteID", [.rnum 1001]), ("QuotedPrice", [.rnum (-5)]),
       ("DepositPaid", [.rnone])]⟩

/-- An empty raw collections sheet. -/
def c5CollRaw : RawSheet := ⟨0, []⟩

/-- A raw assignments sheet whose QuoteID cell is unparseable text. -/
def c5AssignRaw : RawSheet := ⟨1, [("QuoteID", [.rtext "abc"])]⟩

/-- A record set passed to `save_data` whose QuoteID column holds
unparseable text. -/
def c8Sheet : RawSheet :=
  ⟨1, [("QuoteID", [.rtext "abc"]), ("Client", [.rtext "Ann"])]⟩

/-- A durable state with one sale on file and no temporary file. -/
def c6Disk : FS := ⟨⟨[⟨1001, 1000, 250, 25⟩], [], []⟩, none⟩

/-- New content to be saved over `c6Disk`. -/
def c6New : Workbook := ⟨[⟨1001, 1000, 250, 25⟩, ⟨1002, 600, 0, 0⟩], [], []⟩

/-! Helper lemmas. -/

theorem listMax_le (l : List ℤ) (m : ℤ) (hm : listMax l = some m) :
    ∀ q ∈ l, q ≤ m := by
  induction l generalizing m with
  | nil => simp [listMax] at hm
  | cons x xs ih =>
    intro q hq
    rw [listMax] at hm
    rcases List.mem_cons.mp hq with rfl | hq
    · cases hxs : listMax xs with
      | none => simp [hxs] at hm; omega
      | some m0 => simp [hxs] at hm; omega
    · cases hxs : listMax xs with
      | none =>
        rcases xs with _ | ⟨y, ys⟩
        · simp at hq
        · simp [listMax] at hxs
      | some m0 =>
        have := ih m0 hxs q hq
        simp [hxs] at hm
        omega

theorem listMax_mem (l : List ℤ) (m : ℤ) (hm : listMax l = some m) : m ∈ l := by
  induction l generalizing m with
  | nil => simp [listMax] at hm
  | cons x xs ih =>
    rw [listMax] at hm
    cases hxs : listMax xs with
    | none => simp [hxs] at hm; simp [hm]
    | some m0 =>
      simp [hxs] at hm
      rcases max_choice x m0 with h | h <;> rw [h] at hm
      · simp [hm]
      · exact List.mem_cons_of_mem _ (hm ▸ ih m0 hxs)

theorem listMax_append_singleton (l : List ℤ) (v : ℤ) (h : ∀ q ∈ l, q ≤ v) :
    listMax (l ++ [v]) = some v := by
  induction l with
  | nil => simp [listMax]
  | cons x xs ih =>
    have hx : x ≤ v := h x (List.mem_cons_self x xs)
    have hxs := ih fun q hq => h q (List.mem_cons_of_mem x hq)
    rw [List.cons_append, listMax, hxs]
    show some (max x v) = some v
    rw [max_eq_right hx]

theorem lt_nextId (lo q : ℤ) (cands : List ℤ) (hq : q ∈ cands) :
    q < nextId lo cands := by
  unfold nextId
  cases hm : listMax cands with
  | none =>
    rcases cands with _ | ⟨y, ys⟩
    · simp at hq
    · simp [listMax] at hm
  | some m =>
    show q < m + 1
    have := listMax_le cands m hm q hq
    omega

theorem nextId_lo_le (lo : ℤ) (cands : List ℤ) (h : ∀ q ∈ cands, lo ≤ q) :
    lo ≤ nextId lo cands := by
  unfold nextId
  cases hm : listMax cands with
  | none => show lo ≤ lo; omega
  | some m =>
    show lo ≤ m + 1
    have := h m (listMax_mem cands m hm)
    omega

theorem nextId_le (lo b : ℤ) (cands : List ℤ) (h : ∀ q ∈ cands, q ≤ b)
    (hlo : lo ≤ b + 1) : nextId lo cands ≤ b + 1 := by
  unfold nextId
  cases hm : listMax cands with
  | none => show lo ≤ b + 1; omega
  | some m =>
    show m + 1 ≤ b + 1
    have := h m (listMax_mem cands m hm)
    omega

theorem nextId_append_succ (lo v : ℤ) (cands : List ℤ)
    (h : ∀ q ∈ cands, q < v) : nextId lo (cands ++ [v]) = v + 1 := by
  unfold nextId
  rw [listMax_append_singleton cands v fun q hq => le_of_lt (h q hq)]

theorem setCol_nrows (t : RawSheet) (n : String) (v : List RawCell) :
    (setCol t n v).nrows = t.nrows := by
  unfold setCol
  cases findColVal n t.cols <;> rfl

theorem dropCol_nrows (t : RawSheet) (n : String) :
    (dropCol t n).nrows = t.nrows := rfl

theorem findColVal_set_self (n : String) (v : List RawCell)
    (cols : List (String × List RawCell)) (h : (findColVal n cols).isSome) :
    findColVal n (cols.map fun p => if p.1 = n then (p.1, v) else p) = some v := by
  induction cols with
  | nil => simp [findColVal] at h
  | cons p ps ih =>
    by_cases hp : p.1 = n
    · simp [findColVal, hp]
    · simp only [findColVal, if_neg hp] at h
      simpa [findColVal, hp] using ih h

theorem findColVal_append_self (n : String) (v : List RawCell)
    (cols : List (String × List RawCell)) (h : findColVal n cols = none) :
    findColVal n (cols ++ [(n, v)]) = some v := by
  induction cols with
  | nil => simp [findColVal]
  | cons p ps ih =>
    by_cases hp : p.1 = n
    · simp [findColVal, hp] at h
    · simp only [findColVal, if_neg hp] at h
      simpa [findColVal, hp] using ih h

theorem findColVal_set_ne (n m : String) (v : List RawCell) (hnm : m ≠ n)
    (cols : List (String × List RawCell)) :
    findColVal m (cols.map fun p => if p.1 = n then (p.1, v) else p) =
      findColVal m cols := by
  have hnm' : ¬(n = m) := fun hc => hnm hc.symm
  induction cols with
  | nil => rfl
  | cons p ps ih =>
    by_cases hp : p.1 = n
    · simpa [findColVal, hp, hnm'] using ih
    · by_cases hm : p.1 = m
      · simp [findColVal, hp, hm, hnm]
      · simpa [findColVal, hp, hm] using ih

theorem findColVal_append_ne (n m : String) (v : List RawCell) (hnm : m ≠ n)
    (cols : List (String × List RawCell)) :
    findColVal m (cols ++ [(n, v)]) = findColVal m cols := by
  induction cols with
  | nil =>
    have : ¬(n = m) := fun hc => hnm hc.symm
    simp [findColVal, this]
  | cons p ps ih =>
    by_cases hm : p.1 = m
    · simp [findColVal, hm]
    · simpa [findColVal, hm] using ih

theorem getCol_setCol_self (t : RawSheet) (n : String) (v : List RawCell) :
    getCol (setCol t n v) n = some v := by
  unfold getCol setCol
  cases h : findColVal n t.cols with
  | some w => exact findColVal_set_self n v t.cols (by simp [h])
  | none => exact findColVal_append_self n v t.cols h

theorem getCol_setCol_ne (t : RawSheet) (n m : String) (v : List RawCell)
    (h : m ≠ n) : getCol (setCol t n v) m = getCol t m := by
  unfold getCol setCol
  cases hf : findColVal n t.cols with
  | some w => exact findColVal_set_ne n m v h t.cols
  | none => exact findColVal_append_ne n m v h t.cols

theorem findColVal_remove_self (n : String)
    (cols : List (String × List RawCell)) :
    findColVal n (removeCol n cols) = none := by
  induction cols with
  | nil => rfl
  | cons p ps ih =>
    by_cases hp : p.1 = n
    · simpa [removeCol, hp] using ih
    · simpa [removeCol, findColVal, hp] using ih

theorem findColVal_remove_ne (n m : String) (hnm : m ≠ n)
    (cols : List (String × List RawCell)) :
    findColVal m (removeCol n cols) = findColVal m cols := by
  have hnm' : ¬(n = m) := fun hc => hnm hc.symm
  induction cols with
  | nil => rfl
  | cons p ps ih =>
    by_cases hp : p.1 = n
    · simpa [removeCol, findColVal, hp, hnm'] using ih
    · by_cases hm : p.1 = m
      · simp [removeCol, findColVal, hp, hm, hnm]
      · simpa [removeCol, findColVal, hp, hm] using ih

theorem getCol_dropCol_self (t : RawSheet) (n : String) :
    getCol (dropCol t n) n = none :=
  findColVal_remove_self n t.cols

theorem getCol_dropCol_ne (t : RawSheet) (n m : String) (h : m ≠ n) :
    getCol (dropCol t n) m = getCol t m :=
  findColVal_remove_ne n m h t.cols

theorem numColD_setCol_ne (t : RawSheet) (n m : String) (v : List RawCell)
    (h : m ≠ n) : numColD (setCol t n v) m = numColD t m := by
  unfold numColD
  rw [getCol_setCol_ne t n m v h, setCol_nrows]

theorem setColIfPresent_nrows (t : RawSheet) (n : String) (f : RawCell → RawCell) :
    (setColIfPresent t n f).nrows = t.nrows := by
  unfold setColIfPresent
  cases getCol t n with
  | some col => exact setCol_nrows t n (col.map f)
  | none => rfl

theorem getCol_setColIfPresent_self (t : RawSheet) (n : String)
    (f : RawCell → RawCell) :
    getCol (setColIfPresent t n f) n = (getCol t n).map (List.map f) := by
  unfold setColIfPresent
  cases h : getCol t n with
  | some col => rw [getCol_setCol_self]; rfl
  | none => rw [h]; rfl

theorem getCol_setColIfPresent_ne (t : RawSheet) (n m : String)
    (f : RawCell → RawCell) (h : m ≠ n) :
    getCol (setColIfPresent t n f) m = getCol t m := by
  unfold setColIfPresent
  cases getCol t n with
  | some col => exact getCol_setCol_ne t n m _ h
  | none => rfl

theorem ensureCol_nrows (t : RawSheet) (n : String) (v : List RawCell) :
    (ensureCol t n v).nrows = t.nrows := by
  unfold ensureCol
  cases getCol t n with
  | some col => rfl
  | none => exact setCol_nrows t n v

theorem getCol_ensureCol_self (t : RawSheet) (n : String) (v : List RawCell) :
    getCol (ensureCol t n v) n = some ((getCol t n).getD v) := by
  unfold ensureCol
  cases h : getCol t n with
  | some col => rw [h]; rfl
  | none => rw [getCol_setCol_self]; rfl

theorem getCol_ensureCol_ne (t : RawSheet) (n m : String) (v : List RawCell)
    (h : m ≠ n) : getCol (ensureCol t n v) m = getCol t m := by
  unfold ensureCol
  cases getCol t n with
  | some col => rfl
  | none => exact getCol_setCol_ne t n m v h

theorem coerceNumCol_nrows (t : RawSheet) (n : String) :
    (coerceNumCol t n).nrows = t.nrows := setCol_nrows t n _

theorem getCol_coerceNumCol_self (t : RawSheet) (n : String) :
    getCol (coerceNumCol t n) n = some ((numColD t n).map numCoerce) :=
  getCol_setCol_self t n _

theorem getCol_coerceNumCol_ne (t : RawSheet) (n m : String) (h : m ≠ n) :
    getCol (coerceNumCol t n) m = getCol t m :=
  getCol_setCol_ne t n m _ h

theorem numColD_coerceNumCol_ne (t : RawSheet) (n m : String) (h : m ≠ n) :
    numColD (coerceNumCol t n) m = numColD t m :=
  numColD_setCol_ne t n m _ h

theorem coerceNumColSoft_nrows (t : RawSheet) (n : String) :
    (coerceNumColSoft t n).nrows = t.nrows := setCol_nrows t n _

theorem getCol_coerceNumColSoft_self (t : RawSheet) (n : String) :
    getCol (coerceNumColSoft t n) n = some ((numColD t n).map toNumCellOrNaN) :=
  getCol_setCol_self t n _

theorem getCol_coerceNumColSoft_ne (t : RawSheet) (n m : String) (h : m ≠ n) :
    getCol (coerceNumColSoft t n) m = getCol t m :=
  getCol_setCol_ne t n m _ h

theorem numColD_coerceNumColSoft_ne (t : RawSheet) (n m : String) (h : m ≠ n) :
    numColD (coerceNumColSoft t n) m = numColD t m :=
  numColD_setCol_ne t n m _ h

theorem ensureQuoteId_nrows (t : RawSheet) :
    (ensureQuoteId t).nrows = t.nrows := ensureCol_nrows t _ _

theorem getCol_ensureQuoteId_self (t : RawSheet) :
    getCol (ensureQuoteId t) "QuoteID" =
      some ((getCol t "QuoteID").getD (List.replicate t.nrows .rnone)) :=
  getCol_ensureCol_self t _ _

theorem getCol_ensureQuoteId_ne (t : RawSheet) (m : String)
    (h : m ≠ "QuoteID") : getCol (ensureQuoteId t) m = getCol t m :=
  getCol_ensureCol_ne t _ m _ h

theorem normQuoteId_nrows (t : RawSheet) :
    (normQuoteId t).nrows = t.nrows := setCol_nrows t _ _

theorem getCol_normQuoteId_self (t : RawSheet) :
    getCol (normQuoteId t) "QuoteID" =
      some (((getCol t "QuoteID").getD []).map coerceIdCell) :=
  getCol_setCol_self t _ _

theorem getCol_normQuoteId_ne (t : RawSheet) (m : String)
    (h : m ≠ "QuoteID") : getCol (normQuoteId t) m = getCol t m :=
  getCol_setCol_ne t _ m _ h

theorem coerceIdCell_toNumCellOrNaN (c : RawCell) :
    coerceIdCell (toNumCellOrNaN c) = coerceIdCell c := by
  cases c <;> rfl

theorem loadSales_quotedPrice (t : RawSheet) :
    getCol (loadSales t) "QuotedPrice" =
      some ((numColD t "QuotedPrice").map numCoerce) := by
  unfold loadSales
  rw [getCol_normQuoteId_ne _ _ (by decide), getCol_ensureQuoteId_ne _ _ (by decide),
    getCol_setColIfPresent_ne _ _ _ _ (by decide),
    getCol_setColIfPresent_ne _ _ _ _ (by decide),
    getCol_coerceNumCol_ne _ _ _ (by decide), getCol_coerceNumCol_self]

theorem loadSales_depositPaid (t : RawSheet) :
    getCol (loadSales t) "DepositPaid" =
      some ((numColD t "DepositPaid").map numCoerce) := by
  unfold loadSales
  rw [getCol_normQuoteId_ne _ _ (by decide), getCol_ensureQuoteId_ne _ _ (by decide),
    getCol_setColIfPresent_ne _ _ _ _ (by decide),
    getCol_setColIfPresent_ne _ _ _ _ (by decide),
    getCol_coerceNumCol_self, numColD_coerceNumCol_ne _ _ _ (by decide)]

theorem loadSales_startDate (t : RawSheet) :
    getCol (loadSales t) "StartDate" =
      (getCol t "StartDate").map (List.map dateCoerce) := by
  unfold loadSales
  rw [getCol_normQuoteId_ne _ _ (by decide), getCol_ensureQuoteId_ne _ _ (by decide),
    getCol_setColIfPresent_ne _ _ _ _ (by decide), getCol_setColIfPresent_self,
    getCol_coerceNumCol_ne _ _ _ (by decide), getCol_coerceNumCol_ne _ _ _ (by decide)]

theorem loadSales_endDate (t : RawSheet) :
    getCol (loadSales t) "EndDate" =
      (getCol t "EndDate").map (List.map dateCoerce) := by
  unfold loadSales
  rw [getCol_normQuoteId_ne _ _ (by decide), getCol_ensureQuoteId_ne _ _ (by decide),
    getCol_setColIfPresent_self, getCol_setColIfPresent_ne _ _ _ _ (by decide),
    getCol_coerceNumCol_ne _ _ _ (by decide), getCol_coerceNumCol_ne _ _ _ (by decide)]

theorem loadSales_quoteId (t : RawSheet) :
    getCol (loadSales t) "QuoteID" =
      some (((getCol t "QuoteID").getD (List.replicate t.nrows .rnone)).map
        coerceIdCell) := by
  unfold loadSales
  rw [getCol_normQuoteId_self, getCol_ensureQuoteId_self,
    getCol_setColIfPresent_ne _ _ _ _ (by decide),
    getCol_setColIfPresent_ne _ _ _ _ (by decide),
    getCol_coerceNumCol_ne _ _ _ (by decide), getCol_coerceNumCol_ne _ _ _ (by decide),
    setColIfPresent_nrows, setColIfPresent_nrows, coerceNumCol_nrows,
    coerceNumCol_nrows]
  rfl

theorem loadCollections_quoteId (t : RawSheet) :
    getCol (loadCollections t) "QuoteID" =
      some ((numColD t "QuoteID").map coerceIdCell) := by
  unfold loadCollections
  rw [getCol_ensureCol_ne _ _ _ _ (by decide), getCol_dropCol_ne _ _ _ (by decide),
    getCol_normQuoteId_self, getCol_coerceNumCol_ne _ _ _ (by decide),
    getCol_coerceNumColSoft_self]
  show some ((((numColD t "QuoteID").map toNumCellOrNaN).map coerceIdCell)) = _
  rw [List.map_map]
  exact congrArg some (List.map_congr_left fun c _ => coerceIdCell_toNumCellOrNaN c)

theorem loadCollections_depositPaid (t : RawSheet) :
    getCol (loadCollections t) "DepositPaid" =
      some ((numColD t "DepositPaid").map numCoerce) := by
  unfold loadCollections
  rw [getCol_ensureCol_ne _ _ _ _ (by decide), getCol_dropCol_ne _ _ _ (by decide),
    getCol_normQuoteId_ne _ _ (by decide), getCol_coerceNumCol_self,
    numColD_coerceNumColSoft_ne _ _ _ (by decide)]

theorem loadCollections_depositDue (t : RawSheet) :
    getCol (loadCollections t) "DepositDue" = none := by
  unfold loadCollections
  rw [getCol_ensureCol_ne _ _ _ _ (by decide), getCol_dropCol_self]

theorem sync_fields (s : List Sale) (c : List Collection) (x : Sale)
    (hx : x ∈ sync_deposit_paid s c) :
    x.depositPaid = depositSum c x.quoteId ∧
    x.depositPct = (if 0 < x.quotedPrice then
      round2 (depositSum c x.quoteId / x.quotedPrice * 100) else 0) := by
  simp only [sync_deposit_paid, List.mem_map] at hx
  obtain ⟨r, _, rfl⟩ := hx
  exact ⟨rfl, rfl⟩

/-! Claim theorems. -/

/-- C1: after `sync_deposit_paid`, every sale's DepositPaid equals the
sum of DepositPaid over the collection rows with a matching QuoteID (0
when none match), its Deposit% equals round(total / price * 100, 2)
when the price is positive and 0.0 otherwise, and the ledger-sum
conservation also holds after appending new collection rows. -/
theorem spec_c1_rollup_conservation (s : List Sale) (c cNew : List Collection)
    (x : Sale) (hx : x ∈ sync_deposit_paid s c)
    (y : Sale) (hy : y ∈ sync_deposit_paid s (c ++ cNew)) :
    x.depositPaid = depositSum c x.quoteId ∧
    x.depositPct = (if 0 < x.quotedPrice then
      round2 (depositSum c x.quoteId / x.quotedPrice * 100) else 0) ∧
    y.depositPaid = depositSum (c ++ cNew) y.quoteId := by
  obtain ⟨h1, h2⟩ := sync_fields s c x hx
  obtain ⟨h3, _⟩ := sync_fields s (c ++ cNew) y hy
  exact ⟨h1, h2, h3⟩

/-- C7: applying `sync_deposit_paid` a second time with the same
collections set leaves every sale's DepositPaid and Deposit% exactly as
after the first application. -/
theorem spec_c7_rollup_idempotent (s : List Sale) (c : List Collection) :
    (sync_deposit_paid (sync_deposit_paid s c) c).map
        (fun x => (x.depositPaid, x.depositPct)) =
      (sync_deposit_paid s c).map (fun x => (x.depositPaid, x.depositPct)) := by
  unfold sync_deposit_paid
  simp only [List.map_map]
  exact List.map_congr_left fun r _ => rfl

/-- C10: in the per-quote collections history, every row's
TotalPaidAfterThis is at most the quoted price and every row's
BalanceAfterThis is non-negative, for any ledger including
over-payment. -/
theorem spec_c10_history_clipped (qp paid : ℚ) (ledger : List ℚ)
    (row : ℚ × ℚ × ℚ) (hrow : row ∈ coll_history qp paid ledger) :
    row.2.1 ≤ qp ∧ 0 ≤ row.2.2 := by
  simp only [coll_history, List.mem_map] at hrow
  obtain ⟨rt, _, rfl⟩ := hrow
  exact ⟨min_le_right _ _, le_max_right _ _⟩

/-- C3: whatever step of the write path fails, `save_data` returns
False and the canonical file keeps its previous content with no
leftover temporary file; on success the three record sets become
visible together as the new canonical content. -/
theorem spec_c3_atomic_save (fp : FailPoint) (fs : FS) (w : Workbook) :
    (save_data_fs (some fp) fs w).1 = false ∧
    (save_data_fs (some fp) fs w).2.canonical = fs.canonical ∧
    (save_data_fs (some fp) fs w).2.tmp = none ∧
    save_data_fs none fs w = (true, ⟨w, none⟩) := by
  cases fp <;> exact ⟨rfl, rfl, rfl, rfl⟩

/-- C2: with unique sale QuoteIDs, `update_balance_due` gives every
ledger row of a matched QuoteID the sale's max(QuotedPrice -
DepositPaid, 0) (the same value for all rows of that QuoteID), gives
rows with no matching sale BalanceDue 0, and never produces a negative
BalanceDue. -/
theorem spec_c2_balance_broadcast (s : List Sale) (c : List Collection)
    (hnd : (s.map Sale.quoteId).Nodup) (out : List Collection)
    (hout : update_balance_due s c = some out) (r : Collection) (hr : r ∈ out) :
    0 ≤ r.balanceDue ∧
    (∀ sl ∈ s, sl.quoteId = r.quoteId →
      r.balanceDue = max (sl.quotedPrice - sl.depositPaid) 0) ∧
    ((∀ sl ∈ s, sl.quoteId ≠ r.quoteId) → r.balanceDue = 0) := by
  unfold update_balance_due at hout
  by_cases hc : c = []
  · rw [if_pos hc] at hout
    injection hout with hout
    subst hout
    subst hc
    exact absurd hr (List.not_mem_nil r)
  · rw [if_neg hc, if_pos hnd] at hout
    injection hout with hout
    subst hout
    obtain ⟨r0, _, rfl⟩ := List.mem_map.mp hr
    cases hfind : s.find? (fun sl => sl.quoteId == r0.quoteId) with
    | some sl' =>
      have hql : sl'.quoteId = r0.quoteId := by
        simpa using List.find?_some hfind
      have hmem : sl' ∈ s := List.mem_of_find?_eq_some hfind
      simp only [hfind]
      refine ⟨le_max_right _ _, ?_, ?_⟩
      · intro sl hsl heq
        have : sl = sl' := by
          apply List.inj_on_of_nodup_map hnd hsl hmem
          rw [hql]
          exact heq
        rw [this]
      · intro hnone
        exact absurd hql (hnone sl' hmem)
    | none =>
      simp only [hfind]
      refine ⟨le_refl _, ?_, fun _ => trivial⟩
      intro sl hsl heq
      have := List.find?_eq_none.mp hfind sl hsl
      simp only [beq_iff_eq] at this
      exact absurd heq this

/-- C5 counterexample: `load_data` returns the assignments sheet
untouched — a text QuoteID cell "abc" stays text instead of becoming
the integer 0 — and a negative QuotedPrice on the sales sheet survives
the load unchanged, so the loaded numeric fields are not non-negative. -/
theorem spec_c5_counterexample :
    (load_data c5SalesRaw c5CollRaw c5AssignRaw).2.2 = c5AssignRaw ∧
    getCol (load_data c5SalesRaw c5CollRaw c5AssignRaw).2.2 "QuoteID" =
      some [.rtext "abc"] ∧
    getCol (load_data c5SalesRaw c5CollRaw c5AssignRaw).2.2 "QuoteID" ≠
      some [.rnum 0] ∧
    getCol (load_data c5SalesRaw c5CollRaw c5AssignRaw).1 "QuotedPrice" =
      some [.rnum (-5)] ∧
    ¬ (0 ≤ (-5 : ℚ)) := by
  refine ⟨rfl, rfl, by decide, ?_, by norm_num⟩
  rw [show (load_data c5SalesRaw c5CollRaw c5AssignRaw).1 = loadSales c5SalesRaw
    from rfl, loadSales_quotedPrice]
  rfl

/-- C5 amended: `load_data` integer-coerces QuoteID on the Sales and
Collections sheets only (the assignments sheet is returned unchanged),
coerces QuotedPrice / DepositPaid to numbers with unparseable cells
becoming 0 but without any non-negativity clamp, turns invalid dates
into null, drops DepositDue, and degrades every bad cell to a default
instead of failing. -/
theorem spec_c5_load_coercion (s c a : RawSheet) :
    ((load_data s c a).2.2 = a) ∧
    (getCol (load_data s c a).1 "QuoteID" =
      some (((getCol s "QuoteID").getD (List.replicate s.nrows .rnone)).map
        coerceIdCell)) ∧
    (getCol (load_data s c a).1 "QuotedPrice" =
      some ((numColD s "QuotedPrice").map numCoerce)) ∧
    (getCol (load_data s c a).1 "DepositPaid" =
      some ((numColD s "DepositPaid").map numCoerce)) ∧
    (getCol (load_data s c a).1 "StartDate" =
      (getCol s "StartDate").map (List.map dateCoerce)) ∧
    (getCol (load_data s c a).1 "EndDate" =
      (getCol s "EndDate").map (List.map dateCoerce)) ∧
    (getCol (load_data s c a).2.1 "QuoteID" =
      some ((numColD c "QuoteID").map coerceIdCell)) ∧
    (getCol (load_data s c a).2.1 "DepositPaid" =
      some ((numColD c "DepositPaid").map numCoerce)) ∧
    (getCol (load_data s c a).2.1 "DepositDue" = none) :=
  ⟨rfl, loadSales_quoteId s, loadSales_quotedPrice s, loadSales_depositPaid s,
    loadSales_startDate s, loadSales_endDate s, loadCollections_quoteId c,
    loadCollections_depositPaid c, loadCollections_depositDue c⟩

/-- C8 counterexample: `save_data` mutates the caller's record set in
place — on a sheet whose QuoteID column holds the text "abc", the
column is overwritten with coerced integers, so the sheet is no longer
equal to what the caller passed in. -/
theorem spec_c8_counterexample :
    save_data_mutation c8Sheet ≠ c8Sheet := by
  decide

/-- C8 amended: the in-place mutation `save_data` performs is limited
to the QuoteID column — the row count is kept, every other column is
unchanged, and the QuoteID column (when present) is replaced by its
integer coercion. -/
theorem spec_c8_mutation_scope (t : RawSheet) :
    (save_data_mutation t).nrows = t.nrows ∧
    (∀ name, name ≠ "QuoteID" →
      getCol (save_data_mutation t) name = getCol t name) ∧
    getCol (save_data_mutation t) "QuoteID" =
      (getCol t "QuoteID").map (List.map coerceIdCell) := by
  cases hq : getCol t "QuoteID" with
  | none =>
    have ht : save_data_mutation t = t := by
      unfold save_data_mutation
      rw [hq]
    rw [ht, hq]
    exact ⟨rfl, fun _ _ => rfl, rfl⟩
  | some col =>
    have ht : save_data_mutation t = setCol t "QuoteID" (col.map coerceIdCell) := by
      unfold save_data_mutation
      rw [hq]
    rw [ht]
    exact ⟨setCol_nrows t _ _,
      fun name hname => getCol_setCol_ne t _ name _ hname,
      by rw [getCol_setCol_self]; rfl⟩

/-- C8 witness for the amended claim at the concrete sheet: the Client
column is untouched while the QuoteID column is coerced. -/
theorem spec_c8_mutation_scope_witness :
    ("Client" : String) ≠ "QuoteID" ∧
    getCol (save_data_mutation c8Sheet) "Client" = getCol c8Sheet "Client" ∧
    getCol (save_data_mutation c8Sheet) "QuoteID" =
      (getCol c8Sheet "QuoteID").map (List.map coerceIdCell) := by
  have h := spec_c8_mutation_scope c8Sheet
  exact ⟨by decide, h.2.1 "Client" (by decide), h.2.2⟩

/-- C6 counterexample: with the destination locked only during the
first (and only) replace attempt and free from the next instant on,
`save_data` still reports failure after exactly one attempt — it makes
no retry, while a save that retried even once would have succeeded. -/
theorem spec_c6_counterexample :
    save_data_locked (fun n => n == 0) c6Disk c6New =
      (false, ⟨c6Disk.canonical, none⟩, 1) ∧
    (fun n : ℕ => n == 0) 1 = false := by
  exact ⟨rfl, rfl⟩

/-- C6 amended: when the destination is locked, `save_data` makes
exactly one replace attempt — no retry, no backoff — returns False at
once, and leaves the previous durable state untouched with no leftover
temporary file. -/
theorem spec_c6_single_attempt (locked : ℕ → Bool) (fs : FS) (w : Workbook)
    (h : locked 0 = true) :
    save_data_locked locked fs w = (false, ⟨fs.canonical, none⟩, 1) := by
  unfold save_data_locked
  rw [if_pos h]
  rfl

/-- C6 witness for the amended claim at a concrete always-locked
destination. -/
theorem spec_c6_single_attempt_witness :
    (fun _ : ℕ => true) 0 = true ∧
    save_data_locked (fun _ => true) c6Disk c6New =
      (false, ⟨c6Disk.canonical, none⟩, 1) :=
  ⟨rfl, spec_c6_single_attempt (fun _ => true) c6Disk c6New rfl⟩

/-- C4 counterexample: with an existing quote 1999, the Toms River
allocator returns 2000, which is outside [1000, 2000) and inside the
Manahawkin range [2000, 3000). -/
theorem spec_c4_counterexample :
    generate_unique_quote_id "Toms River" [⟨1999, 0, 0, 0⟩] = 2000 ∧
    ¬ (generate_unique_quote_id "Toms River" [⟨1999, 0, 0, 0⟩] < 2000) ∧
    2000 ≤ generate_unique_quote_id "Toms River" [⟨1999, 0, 0, 0⟩] ∧
    generate_unique_quote_id "Toms River" [⟨1999, 0, 0, 0⟩] < 3000 := by
  decide

/-- C4 amended: each area's allocation returns exactly the range floor
(1000 for Toms River, 2000 for Manahawkin, 3000 for any other area)
when no existing id lies in the area's scanned range, is always at
least that floor, and is strictly greater than every existing id
inside the area's range; the result lies inside [1000, 2000) (resp.
[2000, 3000)) exactly when every existing in-range id is at most 1998
(resp. 2998) — when the range's top id is taken the result overflows
into the next range; the fallback area's range [3000, ∞) always
contains its result. -/
theorem spec_c4_range_allocation (s : List Sale) :
    (((∀ q ∈ s.map Sale.quoteId, ¬(1000 ≤ q ∧ q < 2000)) →
        generate_unique_quote_id "Toms River" s = 1000) ∧
      1000 ≤ generate_unique_quote_id "Toms River" s ∧
      (∀ q ∈ s.map Sale.quoteId, 1000 ≤ q → q < 2000 →
        q < generate_unique_quote_id "Toms River" s) ∧
      (generate_unique_quote_id "Toms River" s < 2000 ↔
        (∀ q ∈ s.map Sale.quoteId, 1000 ≤ q → q < 2000 → q ≤ 1998))) ∧
    (((∀ q ∈ s.map Sale.quoteId, ¬(2000 ≤ q ∧ q < 3000)) →
        generate_unique_quote_id "Manahawkin" s = 2000) ∧
      2000 ≤ generate_unique_quote_id "Manahawkin" s ∧
      (∀ q ∈ s.map Sale.quoteId, 2000 ≤ q → q < 3000 →
        q < generate_unique_quote_id "Manahawkin" s) ∧
      (generate_unique_quote_id "Manahawkin" s < 3000 ↔
        (∀ q ∈ s.map Sale.quoteId, 2000 ≤ q → q < 3000 → q ≤ 2998))) ∧
    (∀ area : String, pyStrip area ≠ "Toms River" →
      pyStrip area ≠ "Manahawkin" →
      ((∀ q ∈ s.map Sale.quoteId, ¬(3000 ≤ q)) →
        generate_unique_quote_id area s = 3000) ∧
      3000 ≤ generate_unique_quote_id area s ∧
      ∀ q ∈ s.map Sale.quoteId, 3000 ≤ q →
        q < generate_unique_quote_id area s) := by
  have memTR : ∀ q : ℤ, 1000 ≤ q → q < 2000 → q ∈ s.map Sale.quoteId →
      q ∈ (s.map Sale.quoteId).filter (fun q => 1000 ≤ q && q < 2000) := by
    intro q h1 h2 hq
    refine List.mem_filter.mpr ⟨hq, ?_⟩
    simp only [Bool.and_eq_true, decide_eq_true_eq]
    exact ⟨h1, h2⟩
  have memM : ∀ q : ℤ, 2000 ≤ q → q < 3000 → q ∈ s.map Sale.quoteId →
      q ∈ (s.map Sale.quoteId).filter (fun q => 2000 ≤ q && q < 3000) := by
    intro q h1 h2 hq
    refine List.mem_filter.mpr ⟨hq, ?_⟩
    simp only [Bool.and_eq_true, decide_eq_true_eq]
    exact ⟨h1, h2⟩
  refine ⟨⟨?_, ?_, ?_, ?_, ?_⟩, ⟨?_, ?_, ?_, ?_, ?_⟩, ?_⟩
  · intro hnone
    show nextId 1000 ((s.map Sale.quoteId).filter fun q => 1000 ≤ q && q < 2000)
      = 1000
    have hfil : (s.map Sale.quoteId).filter (fun q => 1000 ≤ q && q < 2000)
        = [] := by
      refine List.filter_eq_nil_iff.mpr fun q hq => ?_
      simp only [Bool.and_eq_true, decide_eq_true_eq, not_and]
      intro h1 h2
      exact hnone q hq ⟨h1, h2⟩
    rw [hfil]
    rfl
  · show (1000 : ℤ) ≤ nextId 1000 _
    refine nextId_lo_le _ _ fun q hq => ?_
    have := (List.mem_filter.mp hq).2
    simp only [Bool.and_eq_true, decide_eq_true_eq] at this
    exact this.1
  · intro q hq h1 h2
    show q < nextId 1000 _
    exact lt_nextId _ _ _ (memTR q h1 h2 hq)
  · intro hlt q hq h1 h2
    have := lt_nextId 1000 q _ (memTR q h1 h2 hq)
    show q ≤ 1998
    have hlt' : nextId 1000 ((s.map Sale.quoteId).filter
        fun q => 1000 ≤ q && q < 2000) < 2000 := hlt
    omega
  · intro hb
    show nextId 1000 ((s.map Sale.quoteId).filter fun q => 1000 ≤ q && q < 2000)
      < 2000
    have h : ∀ q ∈ (s.map Sale.quoteId).filter (fun q => 1000 ≤ q && q < 2000),
        q ≤ 1998 := by
      intro q hq
      have hm := List.mem_filter.mp hq
      have hp := hm.2
      simp only [Bool.and_eq_true, decide_eq_true_eq] at hp
      exact hb q hm.1 hp.1 hp.2
    have := nextId_le 1000 1998 _ h (by omega)
    omega
  · intro hnone
    show nextId 2000 ((s.map Sale.quoteId).filter fun q => 2000 ≤ q && q < 3000)
      = 2000
    have hfil : (s.map Sale.quoteId).filter (fun q => 2000 ≤ q && q < 3000)
        = [] := by
      refine List.filter_eq_nil_iff.mpr fun q hq => ?_
      simp only [Bool.and_eq_true, decide_eq_true_eq, not_and]
      intro h1 h2
      exact hnone q hq ⟨h1, h2⟩
    rw [hfil]
    rfl
  · show (2000 : ℤ) ≤ nextId 2000 _
    refine nextId_lo_le _ _ fun q hq => ?_
    have := (List.mem_filter.mp hq).2
    simp only [Bool.and_eq_true, decide_eq_true_eq] at this
    exact this.1
  · intro q hq h1 h2
    show q < nextId 2000 _
    exact lt_nextId _ _ _ (memM q h1 h2 hq)
  · intro hlt q hq h1 h2
    have := lt_nextId 2000 q _ (memM q h1 h2 hq)
    show q ≤ 2998
    have hlt' : nextId 2000 ((s.map Sale.quoteId).filter
        fun q => 2000 ≤ q && q < 3000) < 3000 := hlt
    omega
  · intro hb
    show nextId 2000 ((s.map Sale.quoteId).filter fun q => 2000 ≤ q && q < 3000)
      < 3000
    have h : ∀ q ∈ (s.map Sale.quoteId).filter (fun q => 2000 ≤ q && q < 3000),
        q ≤ 2998 := by
      intro q hq
      have hm := List.mem_filter.mp hq
      have hp := hm.2
      simp only [Bool.and_eq_true, decide_eq_true_eq] at hp
      exact hb q hm.1 hp.1 hp.2
    have := nextId_le 2000 2998 _ h (by omega)
    omega
  · intro area h1 h2
    unfold generate_unique_quote_id
    rw [if_neg h1, if_neg h2]
    refine ⟨?_, ?_, ?_⟩
    · intro hnone
      have hfil : (s.map Sale.quoteId).filter (fun q => 3000 ≤ q) = [] := by
        refine List.filter_eq_nil_iff.mpr fun q hq => ?_
        simp only [decide_eq_true_eq]
        exact hnone q hq
      rw [hfil]
      rfl
    · refine nextId_lo_le _ _ fun q hq => ?_
      have := (List.mem_filter.mp hq).2
      simpa using this
    · intro q hq h3
      refine lt_nextId _ _ _ (List.mem_filter.mpr ⟨hq, ?_⟩)
      simpa using h3

/-- C4 witness for the amended claim: at a sales set with no Toms
River id the allocator returns exactly the floor 1000; at a set
holding ids 1500 and 2100 it returns a value above 1500 inside
[1000, 2000), and an unrecognized area allocates at 3000 or above. -/
theorem spec_c4_range_allocation_witness :
    generate_unique_quote_id "Toms River" [⟨2100, 0, 0, 0⟩] = 1000 ∧
    1000 ≤ generate_unique_quote_id "Toms River"
        [⟨1500, 0, 0, 0⟩, ⟨2100, 0, 0, 0⟩] ∧
    generate_unique_quote_id "Toms River"
        [⟨1500, 0, 0, 0⟩, ⟨2100, 0, 0, 0⟩] < 2000 ∧
    (1500 : ℤ) < generate_unique_quote_id "Toms River"
        [⟨1500, 0, 0, 0⟩, ⟨2100, 0, 0, 0⟩] ∧
    3000 ≤ generate_unique_quote_id "Area 51"
        [⟨1500, 0, 0, 0⟩, ⟨2100, 0, 0, 0⟩] := by
  have h0 := spec_c4_range_allocation [⟨2100, 0, 0, 0⟩]
  have h := spec_c4_range_allocation [⟨1500, 0, 0, 0⟩, ⟨2100, 0, 0, 0⟩]
  refine ⟨h0.1.1 ?_, h.1.2.1, h.1.2.2.2.mpr ?_,
    h.1.2.2.1 1500 (by decide) (by decide) (by decide),
    (h.2.2 "Area 51" (by decide) (by decide)).2.1⟩
  · intro q hq
    have : q = 2100 := by
      simpa using hq
    subst this
    omega
  · intro q hq h1 h2
    have : q = 1500 ∨ q = 2100 := by
      simpa using hq
    rcases this with rfl | rfl <;> omega

/-- C9 counterexample: with an existing quote 1999, the Toms River
allocator returns 2000; after a sale carrying 2000 is inserted, the
next call returns 2000 again, not 2001. -/
theorem spec_c9_counterexample :
    Sale.quoteId ⟨2000, 0, 0, 0⟩ =
      generate_unique_quote_id "Toms River" [⟨1999, 0, 0, 0⟩] ∧
    generate_unique_quote_id "Toms River"
        ([⟨1999, 0, 0, 0⟩] ++ [⟨2000, 0, 0, 0⟩]) ≠
      generate_unique_quote_id "Toms River" [⟨1999, 0, 0, 0⟩] + 1 := by
  decide

/-- C9 amended: the allocator is a pure function of the area and sales
set, and after inserting a sale carrying the returned id the next call
returns that value plus one, provided the returned id lies inside the
area's own scanned range (at the top of a bounded range the returned id
falls outside it and the successor property fails). -/
theorem spec_c9_successor (area : String) (s : List Sale) (sale : Sale)
    (hid : sale.quoteId = generate_unique_quote_id area s)
    (hin : areaRange area sale.quoteId) :
    generate_unique_quote_id area (s ++ [sale]) =
      generate_unique_quote_id area s + 1 := by
  unfold areaRange at hin
  by_cases hTR : pyStrip area = "Toms River"
  · rw [if_pos hTR] at hin
    have hgen : generate_unique_quote_id area s =
        nextId 1000 ((s.map Sale.quoteId).filter fun q => 1000 ≤ q && q < 2000) := by
      unfold generate_unique_quote_id
      rw [if_pos hTR]
    have hgen2 : generate_unique_quote_id area (s ++ [sale]) =
        nextId 1000 (((s ++ [sale]).map Sale.quoteId).filter
          fun q => 1000 ≤ q && q < 2000) := by
      unfold generate_unique_quote_id
      rw [if_pos hTR]
    rw [hgen] at hid
    have hp : (1000 ≤ sale.quoteId && sale.quoteId < 2000) = true := by
      simp only [Bool.and_eq_true, decide_eq_true_eq]
      exact hin
    rw [hgen2, hgen, List.map_append, List.filter_append, List.map_cons,
      List.map_nil, List.filter_cons, if_pos hp, List.filter_nil, hid]
    exact nextId_append_succ 1000 _ _ fun q hq => lt_nextId _ _ _ hq
  · rw [if_neg hTR] at hin
    by_cases hM : pyStrip area = "Manahawkin"
    · rw [if_pos hM] at hin
      have hgen : generate_unique_quote_id area s =
          nextId 2000 ((s.map Sale.quoteId).filter
            fun q => 2000 ≤ q && q < 3000) := by
        unfold generate_unique_quote_id
        rw [if_neg hTR, if_pos hM]
      have hgen2 : generate_unique_quote_id area (s ++ [sale]) =
          nextId 2000 (((s ++ [sale]).map Sale.quoteId).filter
            fun q => 2000 ≤ q && q < 3000) := by
        unfold generate_unique_quote_id
        rw [if_neg hTR, if_pos hM]
      rw [hgen] at hid
      have hp : (2000 ≤ sale.quoteId && sale.quoteId < 3000) = true := by
        simp only [Bool.and_eq_true, decide_eq_true_eq]
        exact hin
      rw [hgen2, hgen, List.map_append, List.filter_append, List.map_cons,
        List.map_nil, List.filter_cons, if_pos hp, List.filter_nil, hid]
      exact nextId_append_succ 2000 _ _ fun q hq => lt_nextId _ _ _ hq
    · rw [if_neg hM] at hin
      have hgen : generate_unique_quote_id area s =
          nextId 3000 ((s.map Sale.quoteId).filter fun q => 3000 ≤ q) := by
        unfold generate_unique_quote_id
        rw [if_neg hTR, if_neg hM]
      have hgen2 : generate_unique_quote_id area (s ++ [sale]) =
          nextId 3000 (((s ++ [sale]).map Sale.quoteId).filter
            fun q => 3000 ≤ q) := by
        unfold generate_unique_quote_id
        rw [if_neg hTR, if_neg hM]
      rw [hgen] at hid
      have hp : (3000 ≤ sale.quoteId : Bool) = true := by
        simp only [decide_eq_true_eq]
        exact hin
      rw [hgen2, hgen, List.map_append, List.filter_append, List.map_cons,
        List.map_nil, List.filter_cons, if_pos hp, List.filter_nil, hid]
      exact nextId_append_succ 3000 _ _ fun q hq => lt_nextId _ _ _ hq

/-- C9 witness for the amended claim: from a sale with id 1500 the
allocator returns 1501, which is in range, and after inserting a sale
with id 1501 the next call returns 1502. -/
theorem spec_c9_successor_witness :
    Sale.quoteId ⟨1501, 0, 0, 0⟩ =
      generate_unique_quote_id "Toms River" [⟨1500, 0, 0, 0⟩] ∧
    areaRange "Toms River" (Sale.quoteId ⟨1501, 0, 0, 0⟩) ∧
    generate_unique_quote_id "Toms River"
        ([⟨1500, 0, 0, 0⟩] ++ [⟨1501, 0, 0, 0⟩]) =
      generate_unique_quote_id "Toms River" [⟨1500, 0, 0, 0⟩] + 1 := by
  have hid : Sale.quoteId ⟨1501, 0, 0, 0⟩ =
      generate_unique_quote_id "Toms River" [⟨1500, 0, 0, 0⟩] := by decide
  have hin : areaRange "Toms River" (Sale.quoteId ⟨1501, 0, 0, 0⟩) := by
    unfold areaRange
    rw [if_pos (by decide)]
    exact ⟨by decide, by decide⟩
  exact ⟨hid, hin, spec_c9_successor "Toms River" _ _ hid hin⟩

/-- C1 witness: one sale priced 1000 with a 250 ledger payment rolls
up to 250 paid / 25%, and after appending an 800 payment the roll-up
over the extended ledger gives 1050. -/
theorem spec_c1_rollup_conservation_witness :
    ((⟨1001, 1000, 250, 25⟩ : Sale) ∈ sync_deposit_paid c1Sales c1Ledger) ∧
    ((⟨1001, 1000, 1050, 105⟩ : Sale) ∈
      sync_deposit_paid c1Sales (c1Ledger ++ c1More)) ∧
    depositSum c1Ledger 1001 = 250 ∧
    depositSum (c1Ledger ++ c1More) 1001 = 1050 := by
  have h1 : (⟨1001, 1000, 250, 25⟩ : Sale) ∈ sync_deposit_paid c1Sales c1Ledger := by
    norm_num [sync_deposit_paid, depositSum, c1Sales, c1Ledger, List.filter_cons,
      round2, round_eq]
  have h2 : (⟨1001, 1000, 1050, 105⟩ : Sale) ∈
      sync_deposit_paid c1Sales (c1Ledger ++ c1More) := by
    norm_num [sync_deposit_paid, depositSum, c1Sales, c1Ledger, c1More,
      List.filter_cons, round2, round_eq]
  have h := spec_c1_rollup_conservation c1Sales c1Ledger c1More _ h1 _ h2
  exact ⟨h1, h2, h.1.symm, h.2.2.symm⟩

/-- C2 witness: at the concrete reconciled state, the matched ledger
row carries max(1000 - 250, 0) and the orphan row carries 0, both
non-negative. -/
theorem spec_c2_balance_broadcast_witness :
    (c2Sales.map Sale.quoteId).Nodup ∧
    update_balance_due c2Sales c2Ledger = some c2Out ∧
    ((⟨1001, 250, max ((1000 : ℚ) - 250) 0⟩ : Collection) ∈ c2Out) ∧
    Collection.balanceDue ⟨1001, 250, max ((1000 : ℚ) - 250) 0⟩ =
      max ((1000 : ℚ) - 250) 0 ∧
    0 ≤ Collection.balanceDue ⟨1001, 250, max ((1000 : ℚ) - 250) 0⟩ := by
  have hnd : (c2Sales.map Sale.quoteId).Nodup := by decide
  have hout : update_balance_due c2Sales c2Ledger = some c2Out := by rfl
  have hr : (⟨1001, 250, max ((1000 : ℚ) - 250) 0⟩ : Collection) ∈ c2Out := by
    unfold c2Out
    exact List.mem_cons_self _ _
  have h := spec_c2_balance_broadcast c2Sales c2Ledger hnd c2Out hout _ hr
  exact ⟨hnd, hout, hr,
    h.2.1 ⟨1001, 1000, 250, 25⟩
      (by unfold c2Sales; exact List.mem_cons_self _ _) rfl,
    h.1⟩

/-- C10 witness: with price 1000 and 1050 paid (over-payment), the
last history row shows TotalPaidAfterThis clipped to 1000 and
BalanceAfterThis 0. -/
theorem spec_c10_history_clipped_witness :
    (((1050 : ℚ), (1000 : ℚ), (0 : ℚ)) ∈ coll_history 1000 1050 [250, 800]) ∧
    ((1050 : ℚ), (1000 : ℚ), (0 : ℚ)).2.1 ≤ 1000 ∧
    0 ≤ ((1050 : ℚ), (1000 : ℚ), (0 : ℚ)).2.2 := by
  have hrow : ((1050 : ℚ), (1000 : ℚ), (0 : ℚ)) ∈
      coll_history 1000 1050 [250, 800] := by
    norm_num [coll_history, cumsumFrom]
  have h := spec_c10_history_clipped 1000 1050 [250, 800] _ hrow
  exact ⟨hrow, h.1, h.2⟩

end SalesLog
